import Mathlib

/-!
Verification model of the somnia-globe event-to-volume core.

The definitions below are shallow embeddings of two source modules:

* `src/lib/wallet-storage.ts` — the durable wallet store
  (`recordWalletInteraction`, `cleanupOldWallets`, `loadData`,
  `acquireLock`).  JavaScript objects keyed by strings are modelled as
  association lists that preserve insertion order (JS objects preserve
  insertion order for non-integer-like keys, which wallet addresses and
  project ids are); ISO timestamp strings are modelled directly as the
  integer milliseconds they denote (`Date.getTime`).

* `src/lib/push-notifications.ts` — the notification gate
  (`sendPushToProjectSubscribers`).  The Supabase tables are modelled as
  the lists of rows the two queries return; JavaScript number arithmetic
  on volumes and thresholds is modelled exactly over `Rat`; delivery to a
  push endpoint is modelled by an oracle `deliverOk` saying whether the
  awaited `sendPushNotification` call resolves without throwing.
-/

/-! ### String normalization

`walletAddress.toLowerCase()` is modelled character-wise with
`Char.toLower`; `toLowerCase` below is definitionally `String.toLower`
(see `toLowerCase_eq_toLower`) but written over the character list so
that the kernel can evaluate it on literals. -/

def toLowerCase (s : String) : String :=
  ⟨s.data.map Char.toLower⟩

/-! ### JS-object-like association lists

`lookupKey` is property read (`obj[k]`), `setKey` is property write
(`obj[k] = v`): an existing key keeps its position and gets the new
value, a new key is appended at the end. -/

def lookupKey {α : Type} (k : String) : List (String × α) → Option α
  | [] => none
  | e :: rest => if e.1 = k then some e.2 else lookupKey k rest

def setKey {α : Type} (k : String) (v : α) : List (String × α) → List (String × α)
  | [] => [(k, v)]
  | e :: rest => if e.1 = k then (k, v) :: rest else e :: setKey k v rest

/-! ### Durable wallet store (`src/lib/wallet-storage.ts`) -/

abbrev WalletData := List (String × Int)

structure ProjectData where
  wallets : WalletData
  total_transactions : Nat
  last_interaction_at : Int
deriving DecidableEq

abbrev TrackingData := List (String × ProjectData)

structure RecordResult where
  isNewWallet : Bool
  uniqueWallets : Nat
  totalTransactions : Nat
deriving DecidableEq

/-- Source `getProjectData`: returns the stored aggregate, or a fresh one
(created with the current time) when the project is absent. -/
def getProjectData (data : TrackingData) (projectId : String) (now : Int) : ProjectData :=
  match lookupKey projectId data with
  | some project => project
  | none => { wallets := [], total_transactions := 0, last_interaction_at := now }

/-- Source `recordWalletInteraction` run at time `now`: normalizes the
address, determines newness by map membership, stores the timestamp,
always increments `total_transactions`, updates `last_interaction_at`,
and returns the updated counts together with the persisted store. -/
def recordWalletInteraction (data : TrackingData) (projectId walletAddress : String)
    (now : Int) : TrackingData × RecordResult :=
  let project := getProjectData data projectId now
  let normalizedAddress := toLowerCase walletAddress
  let isNewWallet := (lookupKey normalizedAddress project.wallets).isNone
  let wallets := setKey normalizedAddress now project.wallets
  let updated : ProjectData :=
    { wallets := wallets
      total_transactions := project.total_transactions + 1
      last_interaction_at := now }
  (setKey projectId updated data,
   { isNewWallet := isNewWallet
     uniqueWallets := wallets.length
     totalTransactions := updated.total_transactions })

/-- Wallet map of a project in a store state (empty when the project is
absent). -/
def walletsOf (data : TrackingData) (projectId : String) : WalletData :=
  match lookupKey projectId data with
  | some project => project.wallets
  | none => []

/-- Transaction counter of a project in a store state (0 when the project
is absent). -/
def totalTransactionsOf (data : TrackingData) (projectId : String) : Nat :=
  match lookupKey projectId data with
  | some project => project.total_transactions
  | none => 0

/-- Last-interaction timestamp of a project, `none` when absent. -/
def lastInteractionOf (data : TrackingData) (projectId : String) : Option Int :=
  (lookupKey projectId data).map (fun project => project.last_interaction_at)

/-! ### Eviction (`cleanupOldWallets`) -/

/-- 24 hours in milliseconds, the retention window of the source. -/
def retentionWindowMs : Int := 24 * 60 * 60 * 1000

structure CleanupUpdate where
  projectId : String
  uniqueWallets : Nat
  totalTransactions : Nat
  lastInteractionAt : Int
deriving DecidableEq

structure CleanupResult where
  data : TrackingData
  updates : List CleanupUpdate
  totalRemoved : Nat
  projectsCleaned : Nat
  /-- whether `saveData` was called, i.e. the snapshot file was rewritten -/
  saved : Bool
deriving DecidableEq

/-- Predicate of the source's removal test `timestamp < cutoff`. -/
def isOld (cutoff : Int) (entry : String × Int) : Bool :=
  entry.2 < cutoff

/-- Inner per-project pass: drop every wallet entry older than the
cutoff, and report how many were dropped. -/
def cleanupProject (cutoff : Int) (project : ProjectData) : ProjectData × Nat :=
  ({ project with wallets := project.wallets.filter (fun w => !isOld cutoff w) },
   project.wallets.countP (isOld cutoff))

/-- Outer loop of `cleanupOldWallets` over the projects, in iteration
order, accumulating the new store, the per-project updates for cleaned
projects, the total removed count and the cleaned-project count. -/
def cleanupLoop (cutoff : Int) :
    TrackingData → TrackingData × List CleanupUpdate × Nat × Nat
  | [] => ([], [], 0, 0)
  | (projectId, project) :: rest =>
    let cleaned := (cleanupProject cutoff project).1
    let removedCount := (cleanupProject cutoff project).2
    let restResult := cleanupLoop cutoff rest
    if 0 < removedCount then
      ((projectId, cleaned) :: restResult.1,
       { projectId := projectId
         uniqueWallets := cleaned.wallets.length
         totalTransactions := cleaned.total_transactions
         lastInteractionAt := cleaned.last_interaction_at } :: restResult.2.1,
       removedCount + restResult.2.2.1,
       restResult.2.2.2 + 1)
    else
      ((projectId, cleaned) :: restResult.1, restResult.2.1,
       restResult.2.2.1, restResult.2.2.2)

/-- Source `cleanupOldWallets` run at time `now`: sweeps every project,
persists (rewrites the snapshot) only when at least one entry was
removed. -/
def cleanupOldWallets (data : TrackingData) (now : Int) : CleanupResult :=
  let cutoff := now - retentionWindowMs
  let result := cleanupLoop cutoff data
  { data := result.1
    updates := result.2.1
    totalRemoved := result.2.2.1
    projectsCleaned := result.2.2.2
    saved := 0 < result.2.2.1 }

/-! ### Store operation sequences (for the transaction-counter invariant) -/

inductive StoreOp where
  | record (projectId walletAddress : String) (now : Int)
  | cleanup (now : Int)

def applyOp (data : TrackingData) : StoreOp → TrackingData
  | .record projectId walletAddress now =>
      (recordWalletInteraction data projectId walletAddress now).1
  | .cleanup now => (cleanupOldWallets data now).data

def applyOps (data : TrackingData) (ops : List StoreOp) : TrackingData :=
  ops.foldl applyOp data

/-! ### Snapshot loading (`loadData`) -/

/-- Outcome of the `fs.readFile` call: either the file content, or a
thrown error carrying its `code` string (`"ENOENT"` when the file does
not exist). -/
inductive FsReadResult where
  | ok (content : String)
  | err (code : String)
deriving DecidableEq

inductive StoreError where
  | ioError (code : String)
  | parseError (msg : String)
deriving DecidableEq

/-- Source `loadData`, parametrized by the read outcome and by the JSON
parser (`JSON.parse`, whose thrown `SyntaxError` has no `code` field and
so never matches the `ENOENT` test of the shared catch block). -/
def loadData (read : FsReadResult)
    (parseJson : String → Except String TrackingData) : Except StoreError TrackingData :=
  match read with
  | .ok content =>
    match parseJson content with
    | .ok d => .ok d
    | .error msg => .error (.parseError msg)
  | .err code => if code = "ENOENT" then .ok [] else .error (.ioError code)

/-! ### Lock acquisition (`acquireLock`)

The loop is modelled for a single acquirer against a quiescent
filesystem: the lock file is either absent or has a fixed modification
time `mtime`, each backoff sleeps 100 ms so the clock advances by 100
between attempts, and once the file is absent (or removed as stale) the
exclusive `wx` create succeeds. -/

def lockStaleMs : Int := 30000

def lockRetryDelayMs : Int := 100

structure LockAcquisition where
  acquiredAt : Int
  retries : Nat
deriving DecidableEq

/-- Retry loop of `acquireLock` against a lock file of fixed age: when
the lock's age exceeds the staleness threshold it is unlinked and the
lock is taken at the current time; otherwise the acquirer sleeps 100 ms
and retries. -/
def acquireLockLoop (mtime : Int) (now : Int) : LockAcquisition :=
  if lockStaleMs < now - mtime then
    { acquiredAt := now, retries := 0 }
  else
    let rest := acquireLockLoop mtime (now + lockRetryDelayMs)
    { acquiredAt := rest.acquiredAt, retries := rest.retries + 1 }
termination_by (mtime + lockStaleMs + 1 - now).toNat
decreasing_by
  simp [lockStaleMs, lockRetryDelayMs] at *
  omega

/-- Source `acquireLock`: when no lock file exists the lock is taken
immediately; otherwise the staleness retry loop runs. -/
def acquireLock (lockMtime : Option Int) (now : Int) : LockAcquisition :=
  match lockMtime with
  | none => { acquiredAt := now, retries := 0 }
  | some mtime => acquireLockLoop mtime now

/-! ### Notification gate (`sendPushToProjectSubscribers`) -/

/-- Row of `user_notification_preferences` as selected by the gate's
query (`user_id, percentage_threshold, last_notified_volume, enabled`).
`percentage_threshold` is a DECIMAL column read through `Number(...)`;
`last_notified_volume` is a nullable INTEGER column. -/
structure Preference where
  user_id : String
  percentage_threshold : Rat
  last_notified_volume : Option Int
  enabled : Bool
deriving DecidableEq

/-- Row of `push_subscriptions` as selected by the gate's query
(`endpoint, p256dh, auth, user_id`), with a nullable `user_id`. -/
structure Subscription where
  endpoint : String
  p256dh : String
  auth : String
  user_id : Option String
deriving DecidableEq

/-- Observable outcome of one `sendPushToProjectSubscribers` run: the
returned counters, the endpoints to which a delivery attempt was made (in
order), and the `(userId, value)` pairs written to
`last_notified_volume` (in order). -/
structure GateResult where
  sent : Nat
  failed : Nat
  skipped : Nat
  attempted : List String
  updates : List (String × Int)
deriving DecidableEq

def emptyGateResult : GateResult :=
  { sent := 0, failed := 0, skipped := 0, attempted := [], updates := [] }

/-- One step of building `userSubscriptionsMap`: append `sub` to the
group of `userId`, creating the group at the end on first sight (JS
`Map` iteration follows insertion order). -/
def pushToGroup (groups : List (String × List Subscription)) (userId : String)
    (sub : Subscription) : List (String × List Subscription) :=
  match groups with
  | [] => [(userId, [sub])]
  | g :: rest =>
    if g.1 = userId then (g.1, g.2 ++ [sub]) :: rest
    else g :: pushToGroup rest userId sub

/-- Source grouping of subscription rows by `user_id` (rows with a falsy
`user_id` are dropped by the `if (!sub.user_id) return` guard). -/
def groupByUser (subs : List Subscription) : List (String × List Subscription) :=
  subs.foldl
    (fun groups sub =>
      match sub.user_id with
      | none => groups
      | some userId => if userId = "" then groups else pushToGroup groups userId sub)
    []

/-- Source `preferenceMap` lookup: `new Map(preferences.map(p =>
[p.user_id, p]))` keeps the last row for a duplicated key, hence the
reverse search. -/
def preferenceLookup (preferences : List Preference) (userId : String) : Option Preference :=
  preferences.reverse.find? (fun p => p.user_id == userId)

/-- Source percentage-change computation: the real formula when a
positive baseline exists, a forced 100 on a first notification with
positive volume, and 0 otherwise. -/
def percentageChange (currentVolume lastVolume : Int) : Rat :=
  if 0 < lastVolume then
    (((currentVolume : Rat) - (lastVolume : Rat)) / (lastVolume : Rat)) * 100
  else if 0 < currentVolume then 100
  else 0

/-- Body of the per-user loop of `sendPushToProjectSubscribers`: look up
the user's preference, gate on `abs(percentageChange) < threshold`
(counting a skip), otherwise attempt delivery to every device of the
user, count per-endpoint successes and failures, and record the single
`last_notified_volume := currentVolume` write for the user. -/
def processUser (preferences : List Preference) (currentVolume : Int)
    (deliverOk : Subscription → Bool) (acc : GateResult)
    (group : String × List Subscription) : GateResult :=
  match preferenceLookup preferences group.1 with
  | none => acc
  | some preference =>
    let lastVolume := preference.last_notified_volume.getD 0
    let threshold := preference.percentage_threshold
    let pct := percentageChange currentVolume lastVolume
    if |pct| < threshold then
      { acc with skipped := acc.skipped + 1 }
    else
      { sent := acc.sent + group.2.countP deliverOk
        failed := acc.failed + group.2.countP (fun s => !deliverOk s)
        skipped := acc.skipped
        attempted := acc.attempted ++ group.2.map Subscription.endpoint
        updates := acc.updates ++ [(group.1, currentVolume)] }

/-- Preference rows the gate's first query returns: the `eq('enabled',
true)` filter. -/
def enabledPreferences (preferences : List Preference) : List Preference :=
  preferences.filter (fun p => p.enabled)

/-- Subscription rows the gate's second query returns: the
`in('user_id', userIds)` filter over the enabled users. -/
def relevantSubscriptions (preferences : List Preference)
    (subscriptions : List Subscription) : List Subscription :=
  let userIds := (enabledPreferences preferences).map (fun p => p.user_id)
  subscriptions.filter (fun s =>
    match s.user_id with
    | some userId => userIds.contains userId
    | none => false)

/-- Source `sendPushToProjectSubscribers` over the project's preference
rows and the subscription table, at volume `currentVolume`, with delivery
outcomes given by `deliverOk`. -/
def sendPushToProjectSubscribers (preferences : List Preference)
    (subscriptions : List Subscription) (currentVolume : Int)
    (deliverOk : Subscription → Bool) : GateResult :=
  let prefs := enabledPreferences preferences
  if prefs.isEmpty then emptyGateResult
  else
    let subs := relevantSubscriptions preferences subscriptions
    if subs.isEmpty then emptyGateResult
    else
      (groupByUser subs).foldl (processUser prefs currentVolume deliverOk) emptyGateResult

/-- Boolean version of the gate's pass condition for a group, used to
describe the loop's accumulated effects. -/
def qualifiesB (preferences : List Preference) (currentVolume : Int)
    (group : String × List Subscription) : Bool :=
  match preferenceLookup preferences group.1 with
  | none => false
  | some preference =>
    !(decide (|percentageChange currentVolume (preference.last_notified_volume.getD 0)|
        < preference.percentage_threshold))

/-- Step function of `groupByUser`, named for the fold lemmas. -/
def groupStep (groups : List (String × List Subscription)) (sub : Subscription) :
    List (String × List Subscription) :=
  match sub.user_id with
  | none => groups
  | some userId => if userId = "" then groups else pushToGroup groups userId sub

/-- Per-project update row pushed by the cleanup loop for a cleaned
project: its post-cleanup unique-wallet count and untouched counters. -/
def cleanupUpdateOf (cutoff : Int) (e : String × ProjectData) : CleanupUpdate :=
  { projectId := e.1
    uniqueWallets := (e.2.wallets.filter (fun w => !isOld cutoff w)).length
    totalTransactions := e.2.total_transactions
    lastInteractionAt := e.2.last_interaction_at }

/-- Sample store state used by the witnesses. -/
def sampleProject : ProjectData :=
  { wallets := [("0xa", 0)], total_transactions := 3, last_interaction_at := 0 }

/-- Sample single-project tracking store used by the witnesses. -/
def sampleStore : TrackingData := [("p1", sampleProject)]

theorem toLowerCase_eq_toLower (s : String) : toLowerCase s = s.toLower := by
  rw [String.toLower, String.map_eq]
  rfl

theorem char_toNat_ofNat_valid (n : Nat) (h : n.isValidChar) :
    (Char.ofNat n).toNat = n := by
  rw [Char.ofNat, dif_pos h]
  simp [Char.ofNatAux, Char.toNat]
  rfl

theorem char_toLower_toLower (c : Char) : c.toLower.toLower = c.toLower := by
  unfold Char.toLower
  by_cases h : c.toNat ≥ 65 ∧ c.toNat ≤ 90
  · rw [if_pos h]
    have hv : (c.toNat + 32).isValidChar := by left; omega
    have := char_toNat_ofNat_valid (c.toNat + 32) hv
    rw [if_neg]
    omega
  · rw [if_neg h, if_neg h]

theorem toLowerCase_idem (s : String) : toLowerCase (toLowerCase s) = toLowerCase s := by
  simp [toLowerCase, List.map_map, Function.comp_def, char_toLower_toLower]

theorem lookupKey_eq_none_iff {α : Type} (k : String) (l : List (String × α)) :
    lookupKey k l = none ↔ ∀ e ∈ l, e.1 ≠ k := by
  induction l with
  | nil => simp [lookupKey]
  | cons e rest ih =>
    by_cases h : e.1 = k
    · simp [lookupKey, h]
    · simp [lookupKey, h, ih]

theorem lookupKey_setKey_self {α : Type} (k : String) (v : α) (l : List (String × α)) :
    lookupKey k (setKey k v l) = some v := by
  induction l with
  | nil => simp [lookupKey, setKey]
  | cons e rest ih =>
    by_cases h : e.1 = k
    · simp [setKey, h, lookupKey]
    · simp [setKey, h, lookupKey, ih]

theorem lookupKey_setKey_of_ne {α : Type} (k k' : String) (v : α) (l : List (String × α))
    (h : k' ≠ k) : lookupKey k' (setKey k v l) = lookupKey k' l := by
  have hk : ¬ (k = k') := fun hk => h hk.symm
  induction l with
  | nil => simp [lookupKey, setKey, hk]
  | cons e rest ih =>
    by_cases he : e.1 = k
    · simp [setKey, he, lookupKey, hk]
    · simp [setKey, he, lookupKey, ih]

theorem setKey_of_lookup_none {α : Type} (k : String) (v : α) (l : List (String × α))
    (h : lookupKey k l = none) : setKey k v l = l ++ [(k, v)] := by
  induction l with
  | nil => simp [setKey]
  | cons e rest ih =>
    rw [lookupKey] at h
    by_cases he : e.1 = k
    · simp [he] at h
    · simp [he] at h
      simp [setKey, he, ih h]

theorem lookupKey_append_self {α : Type} (k : String) (v : α) (l : List (String × α))
    (h : lookupKey k l = none) : lookupKey k (l ++ [(k, v)]) = some v := by
  induction l with
  | nil => simp [lookupKey]
  | cons e rest ih =>
    rw [lookupKey] at h
    by_cases he : e.1 = k
    · simp [he] at h
    · simp [he] at h
      simp [lookupKey, he, ih h]

theorem setKey_append_of_lookup_none {α : Type} (k : String) (v v' : α)
    (l : List (String × α)) (h : lookupKey k l = none) :
    setKey k v (l ++ [(k, v')]) = l ++ [(k, v)] := by
  induction l with
  | nil => simp [setKey]
  | cons e rest ih =>
    rw [lookupKey] at h
    by_cases he : e.1 = k
    · simp [he] at h
    · simp [he] at h
      simp [setKey, he, ih h]

theorem getProjectData_wallets (data : TrackingData) (projectId : String) (now : Int) :
    (getProjectData data projectId now).wallets = walletsOf data projectId := by
  unfold getProjectData walletsOf
  cases lookupKey projectId data <;> rfl

theorem getProjectData_total (data : TrackingData) (projectId : String) (now : Int) :
    (getProjectData data projectId now).total_transactions
      = totalTransactionsOf data projectId := by
  unfold getProjectData totalTransactionsOf
  cases lookupKey projectId data <;> rfl

/-! ### Helper lemmas about the gate's loop -/

theorem processUser_of_lookup_none (preferences : List Preference) (currentVolume : Int)
    (deliverOk : Subscription → Bool) (acc : GateResult) (group : String × List Subscription)
    (h : preferenceLookup preferences group.1 = none) :
    processUser preferences currentVolume deliverOk acc group = acc := by
  unfold processUser
  rw [h]

theorem processUser_of_skip (preferences : List Preference) (currentVolume : Int)
    (deliverOk : Subscription → Bool) (acc : GateResult) (group : String × List Subscription)
    (preference : Preference)
    (h : preferenceLookup preferences group.1 = some preference)
    (hlt : |percentageChange currentVolume (preference.last_notified_volume.getD 0)|
        < preference.percentage_threshold) :
    processUser preferences currentVolume deliverOk acc group
      = { acc with skipped := acc.skipped + 1 } := by
  unfold processUser
  rw [h]
  simp [hlt]

theorem processUser_of_qualify (preferences : List Preference) (currentVolume : Int)
    (deliverOk : Subscription → Bool) (acc : GateResult) (group : String × List Subscription)
    (preference : Preference)
    (h : preferenceLookup preferences group.1 = some preference)
    (hge : ¬ |percentageChange currentVolume (preference.last_notified_volume.getD 0)|
        < preference.percentage_threshold) :
    processUser preferences currentVolume deliverOk acc group
      = { sent := acc.sent + group.2.countP deliverOk
          failed := acc.failed + group.2.countP (fun s => !deliverOk s)
          skipped := acc.skipped
          attempted := acc.attempted ++ group.2.map Subscription.endpoint
          updates := acc.updates ++ [(group.1, currentVolume)] } := by
  unfold processUser
  rw [h]
  simp [hge]

theorem qualifiesB_of_lookup_none (preferences : List Preference) (currentVolume : Int)
    (group : String × List Subscription)
    (h : preferenceLookup preferences group.1 = none) :
    qualifiesB preferences currentVolume group = false := by
  unfold qualifiesB
  rw [h]

theorem qualifiesB_of_lookup_some (preferences : List Preference) (currentVolume : Int)
    (group : String × List Subscription) (preference : Preference)
    (h : preferenceLookup preferences group.1 = some preference) :
    qualifiesB preferences currentVolume group
      = !(decide (|percentageChange currentVolume (preference.last_notified_volume.getD 0)|
          < preference.percentage_threshold)) := by
  unfold qualifiesB
  rw [h]

theorem foldl_processUser_updates (preferences : List Preference) (currentVolume : Int)
    (deliverOk : Subscription → Bool) (groups : List (String × List Subscription))
    (acc : GateResult) :
    (groups.foldl (processUser preferences currentVolume deliverOk) acc).updates
      = acc.updates
        ++ (groups.filter (qualifiesB preferences currentVolume)).map
            (fun g => (g.1, currentVolume)) := by
  induction groups generalizing acc with
  | nil => simp
  | cons g rest ih =>
    rw [List.foldl_cons, ih, List.filter_cons]
    cases hp : preferenceLookup preferences g.1 with
    | none =>
      rw [processUser_of_lookup_none _ _ _ _ _ hp, qualifiesB_of_lookup_none _ _ _ hp]
      simp
    | some preference =>
      rw [qualifiesB_of_lookup_some _ _ _ _ hp]
      by_cases hlt : |percentageChange currentVolume (preference.last_notified_volume.getD 0)|
          < preference.percentage_threshold
      · rw [processUser_of_skip _ _ _ _ _ _ hp hlt]
        simp [hlt]
      · rw [processUser_of_qualify _ _ _ _ _ _ hp hlt]
        simp [hlt]

theorem foldl_processUser_attempted (preferences : List Preference) (currentVolume : Int)
    (deliverOk : Subscription → Bool) (groups : List (String × List Subscription))
    (acc : GateResult) :
    (groups.foldl (processUser preferences currentVolume deliverOk) acc).attempted
      = acc.attempted
        ++ ((groups.filter (qualifiesB preferences currentVolume)).map
            (fun g => g.2.map Subscription.endpoint)).flatten := by
  induction groups generalizing acc with
  | nil => simp
  | cons g rest ih =>
    rw [List.foldl_cons, ih, List.filter_cons]
    cases hp : preferenceLookup preferences g.1 with
    | none =>
      rw [processUser_of_lookup_none _ _ _ _ _ hp, qualifiesB_of_lookup_none _ _ _ hp]
      simp
    | some preference =>
      rw [qualifiesB_of_lookup_some _ _ _ _ hp]
      by_cases hlt : |percentageChange currentVolume (preference.last_notified_volume.getD 0)|
          < preference.percentage_threshold
      · rw [processUser_of_skip _ _ _ _ _ _ hp hlt]
        simp [hlt]
      · rw [processUser_of_qualify _ _ _ _ _ _ hp hlt]
        simp [hlt]

theorem keys_pushToGroup (groups : List (String × List Subscription)) (userId : String)
    (sub : Subscription) :
    (pushToGroup groups userId sub).map Prod.fst
      = if userId ∈ groups.map Prod.fst then groups.map Prod.fst
        else groups.map Prod.fst ++ [userId] := by
  induction groups with
  | nil => simp [pushToGroup]
  | cons g rest ih =>
    by_cases h : g.1 = userId
    · simp [pushToGroup, h]
    · have hne : ¬ userId = g.1 := fun hu => h hu.symm
      by_cases hm : userId ∈ rest.map Prod.fst
      · simp [pushToGroup, h, ih, hm, hne]
      · simp [pushToGroup, h, ih, hm, hne]

theorem mem_keys_pushToGroup (groups : List (String × List Subscription)) (userId k : String)
    (sub : Subscription) (h : k ∈ (pushToGroup groups userId sub).map Prod.fst) :
    k ∈ groups.map Prod.fst ∨ k = userId := by
  rw [keys_pushToGroup] at h
  by_cases hm : userId ∈ groups.map Prod.fst
  · rw [if_pos hm] at h
    exact Or.inl h
  · rw [if_neg hm] at h
    rcases List.mem_append.mp h with h | h
    · exact Or.inl h
    · exact Or.inr (List.mem_singleton.mp h)

theorem nodup_keys_pushToGroup (groups : List (String × List Subscription)) (userId : String)
    (sub : Subscription) (h : (groups.map Prod.fst).Nodup) :
    ((pushToGroup groups userId sub).map Prod.fst).Nodup := by
  rw [keys_pushToGroup]
  by_cases hm : userId ∈ groups.map Prod.fst
  · rw [if_pos hm]
    exact h
  · rw [if_neg hm, ← List.concat_eq_append]
    exact List.Nodup.concat hm h

theorem groupByUser_eq_foldl (subs : List Subscription) :
    groupByUser subs = subs.foldl groupStep [] := by
  rfl

theorem groupStep_of_user_none (acc : List (String × List Subscription))
    (sub : Subscription) (h : sub.user_id = none) : groupStep acc sub = acc := by
  unfold groupStep
  rw [h]

theorem groupStep_of_user_empty (acc : List (String × List Subscription))
    (sub : Subscription) (h : sub.user_id = some "") : groupStep acc sub = acc := by
  unfold groupStep
  rw [h]
  rfl

theorem groupStep_of_user_some (acc : List (String × List Subscription))
    (sub : Subscription) (userId : String) (h : sub.user_id = some userId)
    (hne : ¬ userId = "") : groupStep acc sub = pushToGroup acc userId sub := by
  unfold groupStep
  rw [h]
  exact if_neg hne

theorem mem_keys_foldl_groupStep (subs : List Subscription)
    (acc : List (String × List Subscription)) (k : String)
    (h : k ∈ (subs.foldl groupStep acc).map Prod.fst) :
    k ∈ acc.map Prod.fst ∨ ∃ s ∈ subs, s.user_id = some k := by
  induction subs generalizing acc with
  | nil => exact Or.inl h
  | cons s rest ih =>
    rw [List.foldl_cons] at h
    rcases ih (groupStep acc s) h with hacc | ⟨s', hs', hu⟩
    · cases hsu : s.user_id with
      | none =>
        rw [groupStep_of_user_none acc s hsu] at hacc
        exact Or.inl hacc
      | some userId =>
        by_cases he : userId = ""
        · rw [he] at hsu
          rw [groupStep_of_user_empty acc s hsu] at hacc
          exact Or.inl hacc
        · rw [groupStep_of_user_some acc s userId hsu he] at hacc
          rcases mem_keys_pushToGroup acc userId k s hacc with hk | hk
          · exact Or.inl hk
          · exact Or.inr ⟨s, List.mem_cons_self s rest, by rw [hsu, hk]⟩
    · exact Or.inr ⟨s', List.mem_cons_of_mem s hs', hu⟩

theorem mem_keys_groupByUser (subs : List Subscription) (k : String)
    (h : k ∈ (groupByUser subs).map Prod.fst) :
    ∃ s ∈ subs, s.user_id = some k := by
  rw [groupByUser_eq_foldl] at h
  rcases mem_keys_foldl_groupStep subs [] k h with hk | hk
  · simp at hk
  · exact hk

theorem nodup_keys_foldl_groupStep (subs : List Subscription)
    (acc : List (String × List Subscription)) (h : (acc.map Prod.fst).Nodup) :
    ((subs.foldl groupStep acc).map Prod.fst).Nodup := by
  induction subs generalizing acc with
  | nil => exact h
  | cons s rest ih =>
    rw [List.foldl_cons]
    refine ih (groupStep acc s) ?_
    cases hsu : s.user_id with
    | none =>
      rw [groupStep_of_user_none acc s hsu]
      exact h
    | some userId =>
      by_cases he : userId = ""
      · rw [he] at hsu
        rw [groupStep_of_user_empty acc s hsu]
        exact h
      · rw [groupStep_of_user_some acc s userId hsu he]
        exact nodup_keys_pushToGroup acc userId s h

theorem nodup_keys_groupByUser (subs : List Subscription) :
    ((groupByUser subs).map Prod.fst).Nodup := by
  rw [groupByUser_eq_foldl]
  exact nodup_keys_foldl_groupStep subs [] (by simp)

theorem filter_key_eq_singleton {β : Type} (l : List (String × β)) (k : String) (v : β)
    (hn : (l.map Prod.fst).Nodup) (hm : (k, v) ∈ l) :
    l.filter (fun e => e.1 == k) = [(k, v)] := by
  induction l with
  | nil => simp at hm
  | cons e rest ih =>
    rw [List.map_cons, List.nodup_cons] at hn
    rcases List.mem_cons.mp hm with he | he
    · subst he
      rw [List.filter_cons]
      simp only [beq_self_eq_true, if_pos]
      have : rest.filter (fun e => e.1 == k) = [] := by
        rw [List.filter_eq_nil_iff]
        intro a ha
        have : a.1 ∈ rest.map Prod.fst := List.mem_map_of_mem Prod.fst ha
        simp only [beq_iff_eq]
        intro hak
        exact hn.1 (by rw [← hak]; exact this)
      rw [this]
    · have hk : k ∈ rest.map Prod.fst := by
        have := List.mem_map_of_mem Prod.fst he
        exact this
      have hek : ¬ (e.1 == k) = true := by
        simp only [beq_iff_eq]
        intro hek
        exact hn.1 (by rw [hek]; exact hk)
      rw [List.filter_cons, if_neg hek]
      exact ih hn.2 he

theorem find?_filter_of_imp {α : Type} (l : List α) (p q : α → Bool)
    (h : ∀ a, p a = true → q a = true) :
    (l.filter q).find? p = l.find? p := by
  induction l with
  | nil => rfl
  | cons a rest ih =>
    rw [List.filter_cons]
    by_cases hq : q a = true
    · rw [if_pos hq, List.find?_cons, List.find?_cons]
      cases hp : p a
      · exact ih
      · rfl
    · have hp : p a = false := by
        cases hpa : p a
        · rfl
        · exact absurd (h a hpa) hq
      rw [if_neg hq, List.find?_cons, hp]
      exact ih

/-! ### Helper lemmas about the eviction loop -/

theorem cleanupLoop_lookup (cutoff : Int) (data : TrackingData) (projectId : String) :
    lookupKey projectId (cleanupLoop cutoff data).1
      = (lookupKey projectId data).map (fun project => (cleanupProject cutoff project).1) := by
  induction data with
  | nil => rfl
  | cons e rest ih =>
    obtain ⟨pid, project⟩ := e
    rw [cleanupLoop]
    by_cases hr : 0 < (cleanupProject cutoff project).2
    · rw [if_pos hr]
      by_cases hp : pid = projectId
      · subst hp
        simp [lookupKey]
      · simp [lookupKey, hp, ih]
    · rw [if_neg hr]
      by_cases hp : pid = projectId
      · subst hp
        simp [lookupKey]
      · simp [lookupKey, hp, ih]

theorem cleanupLoop_totalRemoved (cutoff : Int) (data : TrackingData) :
    (cleanupLoop cutoff data).2.2.1
      = (data.map (fun e => e.2.wallets.countP (isOld cutoff))).sum := by
  induction data with
  | nil => rfl
  | cons e rest ih =>
    obtain ⟨pid, project⟩ := e
    rw [cleanupLoop]
    by_cases hr : 0 < (cleanupProject cutoff project).2
    · rw [if_pos hr]
      simp only [List.map_cons, List.sum_cons]
      rw [← ih]
      rfl
    · rw [if_neg hr]
      have h0 : (cleanupProject cutoff project).2 = 0 := by omega
      simp only [List.map_cons, List.sum_cons]
      rw [← ih]
      have : project.wallets.countP (isOld cutoff) = 0 := h0
      rw [this]
      simp

theorem cleanupLoop_updates (cutoff : Int) (data : TrackingData) :
    (cleanupLoop cutoff data).2.1
      = data.filterMap (fun e =>
          if 0 < e.2.wallets.countP (isOld cutoff) then some (cleanupUpdateOf cutoff e)
          else none
        ) := by
  induction data with
  | nil => rfl
  | cons e rest ih =>
    obtain ⟨pid, project⟩ := e
    rw [cleanupLoop, List.filterMap_cons]
    by_cases hr : 0 < (cleanupProject cutoff project).2
    · rw [if_pos hr]
      have hc : 0 < project.wallets.countP (isOld cutoff) := hr
      rw [if_pos hc, ← ih]
      rfl
    · rw [if_neg hr]
      have hc : ¬ 0 < project.wallets.countP (isOld cutoff) := hr
      rw [if_neg hc]
      exact ih

/-! ### Lock-loop lemmas -/

theorem acquireLockLoop_stale (mtime now : Int) (h : lockStaleMs < now - mtime) :
    acquireLockLoop mtime now = { acquiredAt := now, retries := 0 } := by
  rw [acquireLockLoop]
  exact if_pos h

theorem acquireLockLoop_fresh (mtime now : Int) (h : ¬ lockStaleMs < now - mtime) :
    acquireLockLoop mtime now
      = { acquiredAt := (acquireLockLoop mtime (now + lockRetryDelayMs)).acquiredAt
          retries := (acquireLockLoop mtime (now + lockRetryDelayMs)).retries + 1 } := by
  rw [acquireLockLoop]
  exact if_neg h

theorem acquireLockLoop_retries_bound (mtime now : Int) :
    (acquireLockLoop mtime now).retries ≤ (mtime + lockStaleMs + 1 - now).toNat := by
  by_cases h : lockStaleMs < now - mtime
  · rw [acquireLockLoop_stale mtime now h]
    simp
  · rw [acquireLockLoop_fresh mtime now h]
    have ih := acquireLockLoop_retries_bound mtime (now + lockRetryDelayMs)
    simp only [lockStaleMs, lockRetryDelayMs] at *
    omega
termination_by (mtime + lockStaleMs + 1 - now).toNat
decreasing_by
  simp [lockStaleMs, lockRetryDelayMs] at *
  omega

/-! ### Claim theorems -/

/-- C8: when a store operation reads the snapshot and the file does not
exist (`ENOENT`), `loadData` proceeds on an empty store; any other read
error, and any parse failure (corrupt JSON), is propagated to the caller
as an error rather than silently treated as an empty store. -/
theorem loadData_enoent_empty_other_errors_propagate
    (parseJson : String → Except String TrackingData) :
    loadData (.err "ENOENT") parseJson = .ok []
    ∧ (∀ code, code ≠ "ENOENT" →
        loadData (.err code) parseJson = .error (.ioError code))
    ∧ (∀ content msg, parseJson content = .error msg →
        loadData (.ok content) parseJson = .error (.parseError msg))
    ∧ (∀ content d, parseJson content = .ok d →
        loadData (.ok content) parseJson = .ok d) := by
  refine ⟨rfl, ?_, ?_, ?_⟩
  · intro code hcode
    simp only [loadData]
    rw [if_neg hcode]
  · intro content msg hparse
    simp only [loadData, hparse]
  · intro content d hparse
    simp only [loadData, hparse]

theorem loadData_enoent_empty_other_errors_propagate_witness :
    loadData (.err "ENOENT") (fun _ => .error "bad json") = .ok []
    ∧ loadData (.err "EACCES") (fun _ => .error "bad json")
        = .error (.ioError "EACCES")
    ∧ loadData (.ok "corrupt") (fun _ => .error "bad json")
        = .error (.parseError "bad json") := by
  refine ⟨?_, ?_, ?_⟩
  · exact (loadData_enoent_empty_other_errors_propagate (fun _ => .error "bad json")).1
  · exact (loadData_enoent_empty_other_errors_propagate
      (fun _ => .error "bad json")).2.1 "EACCES" (by decide)
  · exact (loadData_enoent_empty_other_errors_propagate
      (fun _ => .error "bad json")).2.2.1 "corrupt" "bad json" rfl

/-- C9: on lock acquisition, a lock file older than the 30-second
staleness threshold is removed and the acquirer takes the lock
immediately, while a fresh lock file causes at least one backoff retry
but only boundedly many: the retry count is bounded by the time left
until the lock turns stale (divided by the 100 ms backoff), so every
acquisition attempt terminates.  The model fixes a single acquirer
against a quiescent lock file, the situation the staleness rule is
designed for. -/
theorem acquireLock_stale_removal_and_bounded_retries
    (lockMtime : Option Int) (now : Int) :
    (lockMtime = none → acquireLock lockMtime now = { acquiredAt := now, retries := 0 })
    ∧ (∀ mtime, lockMtime = some mtime → lockStaleMs < now - mtime →
        acquireLock lockMtime now = { acquiredAt := now, retries := 0 })
    ∧ (∀ mtime, lockMtime = some mtime → ¬ lockStaleMs < now - mtime →
        1 ≤ (acquireLock lockMtime now).retries)
    ∧ (∀ mtime, lockMtime = some mtime →
        (acquireLock lockMtime now).retries ≤ (mtime + lockStaleMs + 1 - now).toNat) := by
  refine ⟨?_, ?_, ?_, ?_⟩
  · intro h
    rw [h]
    rfl
  · intro mtime h hstale
    rw [h]
    exact acquireLockLoop_stale mtime now hstale
  · intro mtime h hfresh
    rw [h]
    show 1 ≤ (acquireLockLoop mtime now).retries
    rw [acquireLockLoop_fresh mtime now hfresh]
    exact Nat.le_add_left 1 _
  · intro mtime h
    rw [h]
    exact acquireLockLoop_retries_bound mtime now

theorem acquireLock_stale_removal_and_bounded_retries_witness :
    acquireLock (some 0) 40000 = { acquiredAt := 40000, retries := 0 }
    ∧ 1 ≤ (acquireLock (some 35000) 40000).retries
    ∧ (acquireLock (some 35000) 40000).retries ≤ (35000 + lockStaleMs + 1 - 40000).toNat := by
  refine ⟨?_, ?_, ?_⟩
  · exact (acquireLock_stale_removal_and_bounded_retries (some 0) 40000).2.1 0 rfl
      (by decide)
  · exact (acquireLock_stale_removal_and_bounded_retries (some 35000) 40000).2.2.1 35000 rfl
      (by decide)
  · exact (acquireLock_stale_removal_and_bounded_retries (some 35000) 40000).2.2.2 35000 rfl

/-- C1: evaluation of the divergence between the first-notification rule
and the threshold gate.  A subscriber with `last_notified_volume = 0`, an
endpoint, and threshold 150 (reachable: the API route does not bound the
threshold and the column admits values up to 999.99) receives no first
notification at `currentVolume = 5`: the forced `percentageChange = 100`
still runs through `abs(percentageChange) < threshold`, so the subscriber
is counted as skipped, no delivery is attempted, and
`last_notified_volume` stays 0 — contradicting the "always qualifies"
rule stated by the spec, by the code comment `First notification - always
send if volume > 0`, and by the repository docs. -/
theorem first_notification_skipped_at_threshold_150 :
    sendPushToProjectSubscribers
      [{ user_id := "u1", percentage_threshold := 150,
         last_notified_volume := some 0, enabled := true }]
      [{ endpoint := "ep1", p256dh := "k1", auth := "a1", user_id := some "u1" }]
      5 (fun _ => true)
      = { sent := 0, failed := 0, skipped := 1, attempted := [], updates := [] } := by
  decide

/-- C4: for a subscriber with a positive `last_notified_volume` the gate
computes `percentageChange = ((currentVolume - lastNotifiedVolume) /
lastNotifiedVolume) * 100`; when its absolute value is strictly below the
subscriber's threshold the subscriber is counted as skipped, no delivery
is attempted and no `last_notified_volume` write happens, and when it is
not below the threshold every device is attempted and the volume is
written once. -/
theorem threshold_gate_formula_skip_and_update
    (preferences : List Preference) (currentVolume : Int)
    (deliverOk : Subscription → Bool) (acc : GateResult) (userId : String)
    (subs : List Subscription) (preference : Preference)
    (hlook : preferenceLookup preferences userId = some preference)
    (hpos : 0 < preference.last_notified_volume.getD 0) :
    (percentageChange currentVolume (preference.last_notified_volume.getD 0)
        = (((currentVolume : Rat) - ((preference.last_notified_volume.getD 0 : Int) : Rat))
            / ((preference.last_notified_volume.getD 0 : Int) : Rat)) * 100)
    ∧ (|percentageChange currentVolume (preference.last_notified_volume.getD 0)|
          < preference.percentage_threshold →
        processUser preferences currentVolume deliverOk acc (userId, subs)
          = { acc with skipped := acc.skipped + 1 })
    ∧ (¬ |percentageChange currentVolume (preference.last_notified_volume.getD 0)|
          < preference.percentage_threshold →
        processUser preferences currentVolume deliverOk acc (userId, subs)
          = { sent := acc.sent + subs.countP deliverOk
              failed := acc.failed + subs.countP (fun s => !deliverOk s)
              skipped := acc.skipped
              attempted := acc.attempted ++ subs.map Subscription.endpoint
              updates := acc.updates ++ [(userId, currentVolume)] }) := by
  refine ⟨?_, ?_, ?_⟩
  · unfold percentageChange
    rw [if_pos hpos]
  · intro hlt
    exact processUser_of_skip preferences currentVolume deliverOk acc (userId, subs)
      preference hlook hlt
  · intro hge
    exact processUser_of_qualify preferences currentVolume deliverOk acc (userId, subs)
      preference hlook hge

theorem threshold_gate_formula_skip_and_update_witness :
    processUser
      [{ user_id := "u1", percentage_threshold := 10,
         last_notified_volume := some 100, enabled := true }]
      107 (fun _ => true) emptyGateResult
      ("u1", [{ endpoint := "ep1", p256dh := "k1", auth := "a1", user_id := some "u1" }])
      = { sent := 0, failed := 0, skipped := 1, attempted := [], updates := [] }
    ∧ processUser
      [{ user_id := "u1", percentage_threshold := 10,
         last_notified_volume := some 100, enabled := true }]
      111 (fun _ => true) emptyGateResult
      ("u1", [{ endpoint := "ep1", p256dh := "k1", auth := "a1", user_id := some "u1" }])
      = { sent := 1, failed := 0, skipped := 0, attempted := ["ep1"],
          updates := [("u1", 111)] } := by
  constructor
  · rw [(threshold_gate_formula_skip_and_update
      [{ user_id := "u1", percentage_threshold := 10,
         last_notified_volume := some 100, enabled := true }]
      107 (fun _ => true) emptyGateResult "u1"
      [{ endpoint := "ep1", p256dh := "k1", auth := "a1", user_id := some "u1" }]
      { user_id := "u1", percentage_threshold := 10,
        last_notified_volume := some 100, enabled := true }
      (by decide) (by decide)).2.1 (by with_unfolding_all decide)]
    rfl
  · rw [(threshold_gate_formula_skip_and_update
      [{ user_id := "u1", percentage_threshold := 10,
         last_notified_volume := some 100, enabled := true }]
      111 (fun _ => true) emptyGateResult "u1"
      [{ endpoint := "ep1", p256dh := "k1", auth := "a1", user_id := some "u1" }]
      { user_id := "u1", percentage_threshold := 10,
        last_notified_volume := some 100, enabled := true }
      (by decide) (by decide)).2.2 (by with_unfolding_all decide)]
    decide

theorem cleanupOldWallets_data (data : TrackingData) (now : Int) :
    (cleanupOldWallets data now).data = (cleanupLoop (now - retentionWindowMs) data).1 := rfl

theorem cleanupOldWallets_updates_eq (data : TrackingData) (now : Int) :
    (cleanupOldWallets data now).updates
      = (cleanupLoop (now - retentionWindowMs) data).2.1 := rfl

theorem cleanupOldWallets_totalRemoved_eq (data : TrackingData) (now : Int) :
    (cleanupOldWallets data now).totalRemoved
      = (cleanupLoop (now - retentionWindowMs) data).2.2.1 := rfl

theorem cleanupOldWallets_saved_eq (data : TrackingData) (now : Int) :
    (cleanupOldWallets data now).saved
      = decide (0 < (cleanupLoop (now - retentionWindowMs) data).2.2.1) := rfl

theorem walletsOf_cleanup (data : TrackingData) (now : Int) (projectId : String) :
    walletsOf (cleanupOldWallets data now).data projectId
      = (walletsOf data projectId).filter
          (fun w => !isOld (now - retentionWindowMs) w) := by
  unfold walletsOf
  rw [cleanupOldWallets_data, cleanupLoop_lookup]
  cases lookupKey projectId data with
  | none => rfl
  | some project => rfl

theorem nat_sum_pos_iff (l : List Nat) : 0 < l.sum ↔ ∃ x ∈ l, 0 < x := by
  induction l with
  | nil => simp
  | cons a rest ih =>
    simp only [List.sum_cons, List.mem_cons]
    constructor
    · intro h
      by_cases ha : 0 < a
      · exact ⟨a, Or.inl rfl, ha⟩
      · have hr : 0 < rest.sum := by omega
        obtain ⟨x, hx, hpos⟩ := ih.mp hr
        exact ⟨x, Or.inr hx, hpos⟩
    · rintro ⟨x, hx | hx, hpos⟩
      · subst hx
        omega
      · have := ih.mpr ⟨x, hx, hpos⟩
        omega

/-- C5: `cleanupOldWallets` removes exactly the wallet entries whose
timestamp is strictly older than 24 hours before `now` and keeps the
rest, each project's unique-wallet count drops by exactly the number of
its old entries, and `totalRemoved` is the total number of removed
entries across all projects. -/
theorem cleanupOldWallets_removes_exactly_old_entries
    (data : TrackingData) (now : Int) (projectId : String) :
    (∀ entry, entry ∈ walletsOf (cleanupOldWallets data now).data projectId
        ↔ entry ∈ walletsOf data projectId ∧ ¬ entry.2 < now - retentionWindowMs)
    ∧ (walletsOf (cleanupOldWallets data now).data projectId).length
        + (walletsOf data projectId).countP (isOld (now - retentionWindowMs))
        = (walletsOf data projectId).length
    ∧ (cleanupOldWallets data now).totalRemoved
        = (data.map (fun e => e.2.wallets.countP (isOld (now - retentionWindowMs)))).sum := by
  refine ⟨?_, ?_, ?_⟩
  · intro entry
    rw [walletsOf_cleanup]
    simp [List.mem_filter, isOld]
  · rw [walletsOf_cleanup, ← List.countP_eq_length_filter]
    have h1 := List.length_eq_countP_add_countP (isOld (now - retentionWindowMs))
      (l := walletsOf data projectId)
    have h2 : (walletsOf data projectId).countP (fun w => !isOld (now - retentionWindowMs) w)
        = (walletsOf data projectId).countP
            (fun a => decide ¬ isOld (now - retentionWindowMs) a = true) := by
      apply List.countP_congr
      intro x _
      simp
    rw [h2]
    omega
  · rw [cleanupOldWallets_totalRemoved_eq, cleanupLoop_totalRemoved]

theorem walletsOf_setKey_self (data : TrackingData) (projectId : String)
    (project : ProjectData) :
    walletsOf (setKey projectId project data) projectId = project.wallets := by
  unfold walletsOf
  rw [lookupKey_setKey_self]

theorem totalTransactionsOf_setKey_self (data : TrackingData) (projectId : String)
    (project : ProjectData) :
    totalTransactionsOf (setKey projectId project data) projectId
      = project.total_transactions := by
  unfold totalTransactionsOf
  rw [lookupKey_setKey_self]

theorem record_store_eq (data : TrackingData) (projectId walletAddress : String) (now : Int) :
    (recordWalletInteraction data projectId walletAddress now).1
      = setKey projectId
          { wallets := setKey (toLowerCase walletAddress) now (walletsOf data projectId)
            total_transactions := totalTransactionsOf data projectId + 1
            last_interaction_at := now } data := by
  simp only [recordWalletInteraction]
  rw [getProjectData_wallets, getProjectData_total]

theorem record_result_eq (data : TrackingData) (projectId walletAddress : String) (now : Int) :
    (recordWalletInteraction data projectId walletAddress now).2
      = { isNewWallet :=
            (lookupKey (toLowerCase walletAddress) (walletsOf data projectId)).isNone
          uniqueWallets :=
            (setKey (toLowerCase walletAddress) now (walletsOf data projectId)).length
          totalTransactions := totalTransactionsOf data projectId + 1 } := by
  simp only [recordWalletInteraction]
  rw [getProjectData_wallets, getProjectData_total]

theorem totalTransactionsOf_record_self (data : TrackingData)
    (projectId walletAddress : String) (now : Int) :
    totalTransactionsOf (recordWalletInteraction data projectId walletAddress now).1 projectId
      = totalTransactionsOf data projectId + 1 := by
  rw [record_store_eq, totalTransactionsOf_setKey_self]

theorem totalTransactionsOf_record_other (data : TrackingData)
    (projectId walletAddress q : String) (now : Int) (h : q ≠ projectId) :
    totalTransactionsOf (recordWalletInteraction data projectId walletAddress now).1 q
      = totalTransactionsOf data q := by
  rw [record_store_eq]
  unfold totalTransactionsOf
  rw [lookupKey_setKey_of_ne projectId q _ data h]

theorem cleanup_preserves_counters (data : TrackingData) (now : Int) (q : String) :
    totalTransactionsOf (cleanupOldWallets data now).data q = totalTransactionsOf data q
    ∧ lastInteractionOf (cleanupOldWallets data now).data q = lastInteractionOf data q := by
  unfold totalTransactionsOf lastInteractionOf
  rw [cleanupOldWallets_data, cleanupLoop_lookup]
  cases lookupKey q data with
  | none => exact ⟨rfl, rfl⟩
  | some project => exact ⟨rfl, rfl⟩

theorem totalTransactionsOf_applyOp_le (data : TrackingData) (op : StoreOp) (p : String) :
    totalTransactionsOf data p ≤ totalTransactionsOf (applyOp data op) p := by
  cases op with
  | record projectId walletAddress now =>
    show totalTransactionsOf data p
      ≤ totalTransactionsOf (recordWalletInteraction data projectId walletAddress now).1 p
    by_cases h : p = projectId
    · subst h
      rw [totalTransactionsOf_record_self]
      omega
    · rw [totalTransactionsOf_record_other data projectId walletAddress p now h]
  | cleanup now =>
    show totalTransactionsOf data p ≤ totalTransactionsOf (cleanupOldWallets data now).data p
    rw [(cleanup_preserves_counters data now p).1]

/-- C7: `total_transactions` never decreases under any sequence of
`recordWalletInteraction` and `cleanupOldWallets` calls:
`recordWalletInteraction` increments the target project's counter by
exactly 1, and `cleanupOldWallets` leaves every project's
`total_transactions` and `last_interaction_at` unchanged, including
projects whose wallet entries were evicted. -/
theorem total_transactions_monotone (data : TrackingData) (ops : List StoreOp) (p : String) :
    totalTransactionsOf data p ≤ totalTransactionsOf (applyOps data ops) p
    ∧ (∀ walletAddress now,
        totalTransactionsOf (applyOp data (StoreOp.record p walletAddress now)) p
          = totalTransactionsOf data p + 1)
    ∧ (∀ now q,
        totalTransactionsOf (cleanupOldWallets data now).data q = totalTransactionsOf data q
        ∧ lastInteractionOf (cleanupOldWallets data now).data q = lastInteractionOf data q) := by
  refine ⟨?_, ?_, ?_⟩
  · induction ops generalizing data with
    | nil => exact Nat.le_refl _
    | cons op rest ih =>
      calc totalTransactionsOf data p
          ≤ totalTransactionsOf (applyOp data op) p :=
            totalTransactionsOf_applyOp_le data op p
        _ ≤ totalTransactionsOf (applyOps (applyOp data op) rest) p := ih (applyOp data op)
  · intro walletAddress now
    exact totalTransactionsOf_record_self data p walletAddress now
  · intro now q
    exact cleanup_preserves_counters data now q

theorem total_transactions_monotone_witness :
    totalTransactionsOf sampleStore "p1"
      ≤ totalTransactionsOf
          (applyOps sampleStore [StoreOp.record "p1" "0xB" 100, StoreOp.cleanup 90000000])
          "p1"
    ∧ totalTransactionsOf (applyOp sampleStore (StoreOp.record "p1" "0xB" 100)) "p1"
        = totalTransactionsOf sampleStore "p1" + 1 := by
  constructor
  · exact (total_transactions_monotone sampleStore
      [StoreOp.record "p1" "0xB" 100, StoreOp.cleanup 90000000] "p1").1
  · exact (total_transactions_monotone sampleStore [] "p1").2.1 "0xB" 100

theorem mem_filterMap_updates_key (cutoff : Int) (l : TrackingData) (u : CleanupUpdate)
    (hu : u ∈ l.filterMap (fun e =>
        if 0 < e.2.wallets.countP (isOld cutoff) then some (cleanupUpdateOf cutoff e)
        else none)) :
    u.projectId ∈ l.map Prod.fst := by
  rcases List.mem_filterMap.mp hu with ⟨e, he, hsome⟩
  by_cases hc : 0 < e.2.wallets.countP (isOld cutoff)
  · rw [if_pos hc] at hsome
    cases hsome
    exact List.mem_map_of_mem Prod.fst he
  · rw [if_neg hc] at hsome
    cases hsome

theorem filterMap_updates_filter (cutoff : Int) (l : TrackingData)
    (hn : (l.map Prod.fst).Nodup) (e : String × ProjectData) (he : e ∈ l) :
    (l.filterMap (fun x =>
        if 0 < x.2.wallets.countP (isOld cutoff) then some (cleanupUpdateOf cutoff x)
        else none)).filter (fun u => u.projectId == e.1)
      = if 0 < e.2.wallets.countP (isOld cutoff) then [cleanupUpdateOf cutoff e]
        else [] := by
  induction l with
  | nil => simp at he
  | cons hd tl ih =>
    rw [List.map_cons, List.nodup_cons] at hn
    have htailnil : ∀ k, k = hd.1 →
        (tl.filterMap (fun x =>
            if 0 < x.2.wallets.countP (isOld cutoff) then some (cleanupUpdateOf cutoff x)
            else none)).filter (fun u => u.projectId == k) = [] := by
      intro k hk
      rw [List.filter_eq_nil_iff]
      intro u hu
      have hkey := mem_filterMap_updates_key cutoff tl u hu
      simp only [beq_iff_eq]
      intro hue
      exact hn.1 (by rw [← hk, ← hue]; exact hkey)
    rcases List.mem_cons.mp he with rfl | htl
    · rw [List.filterMap_cons]
      by_cases hc : 0 < e.2.wallets.countP (isOld cutoff)
      · rw [if_pos hc, if_pos hc, List.filter_cons]
        have hhead : ((cleanupUpdateOf cutoff e).projectId == e.1) = true := by
          simp [cleanupUpdateOf]
        rw [if_pos hhead, htailnil e.1 rfl]
      · rw [if_neg hc, if_neg hc]
        exact htailnil e.1 rfl
    · have hne : hd.1 ≠ e.1 := by
        intro hcontra
        exact hn.1 (by rw [hcontra]; exact List.mem_map_of_mem Prod.fst htl)
      rw [List.filterMap_cons]
      by_cases hc : 0 < hd.2.wallets.countP (isOld cutoff)
      · rw [if_pos hc, List.filter_cons]
        have hhead : ¬ ((cleanupUpdateOf cutoff hd).projectId == e.1) = true := by
          simp [cleanupUpdateOf]
          exact hne
        rw [if_neg hhead]
        exact ih hn.2 htl
      · rw [if_neg hc]
        exact ih hn.2 htl

/-- C6: `cleanupOldWallets` rewrites the snapshot file exactly when some
wallet entry was older than the retention window (so a no-op cleanup
performs no persistence write), and its `updates` list carries exactly
one element — with the post-cleanup unique-wallet count — for each
project that lost at least one wallet, and none for untouched
projects. -/
theorem cleanupOldWallets_persists_iff_removed (data : TrackingData) (now : Int) :
    ((cleanupOldWallets data now).saved = true
        ↔ ∃ e ∈ data, ∃ w ∈ e.2.wallets, w.2 < now - retentionWindowMs)
    ∧ ((data.map Prod.fst).Nodup → ∀ e ∈ data,
        (cleanupOldWallets data now).updates.filter (fun u => u.projectId == e.1)
          = if 0 < e.2.wallets.countP (isOld (now - retentionWindowMs)) then
              [cleanupUpdateOf (now - retentionWindowMs) e]
            else []) := by
  constructor
  · rw [cleanupOldWallets_saved_eq, cleanupLoop_totalRemoved]
    simp only [decide_eq_true_eq]
    rw [nat_sum_pos_iff]
    constructor
    · rintro ⟨x, hx, hpos⟩
      rcases List.mem_map.mp hx with ⟨e, he, rfl⟩
      rcases List.countP_pos_iff.mp hpos with ⟨w, hw, hold⟩
      refine ⟨e, he, w, hw, ?_⟩
      simpa [isOld] using hold
    · rintro ⟨e, he, w, hw, hold⟩
      refine ⟨e.2.wallets.countP (isOld (now - retentionWindowMs)),
        List.mem_map_of_mem _ he, ?_⟩
      exact List.countP_pos_iff.mpr ⟨w, hw, by simpa [isOld] using hold⟩
  · intro hn e he
    rw [cleanupOldWallets_updates_eq, cleanupLoop_updates]
    exact filterMap_updates_filter (now - retentionWindowMs) data hn e he

theorem cleanupOldWallets_persists_iff_removed_witness :
    ((cleanupOldWallets sampleStore 90000000).saved = true
      ↔ ∃ e ∈ sampleStore, ∃ w ∈ e.2.wallets, w.2 < 90000000 - retentionWindowMs)
    ∧ (cleanupOldWallets sampleStore 90000000).updates.filter
        (fun u => u.projectId == "p1")
        = [cleanupUpdateOf (90000000 - retentionWindowMs) ("p1", sampleProject)] := by
  constructor
  · exact (cleanupOldWallets_persists_iff_removed sampleStore 90000000).1
  · have h := (cleanupOldWallets_persists_iff_removed sampleStore 90000000).2
      (by decide) ("p1", sampleProject) (by decide)
    rw [h]
    decide

theorem cleanupOldWallets_removes_exactly_old_entries_witness :
    (walletsOf (cleanupOldWallets sampleStore 90000000).data "p1").length
      + (walletsOf sampleStore "p1").countP (isOld (90000000 - retentionWindowMs))
      = (walletsOf sampleStore "p1").length :=
  (cleanupOldWallets_removes_exactly_old_entries sampleStore 90000000 "p1").2.1

/-- C2: starting from a state where project `projectId` has no entry for
wallet `w` under case-insensitive comparison, two consecutive
`recordWalletInteraction` calls — the second allowed to differ only in
letter case — return `isNewWallet = true` then `false`, report the same
`uniqueWallets` count, increment `totalTransactions` by exactly one more
on the second call, and leave exactly one entry for the wallet, keyed by
its lower-cased form (holding the second timestamp). -/
theorem recordWalletInteraction_case_insensitive_repeat
    (data : TrackingData) (projectId w w2 : String) (t1 t2 : Int)
    (h : ∀ entry ∈ walletsOf data projectId, toLowerCase entry.1 ≠ toLowerCase w)
    (hw2 : toLowerCase w2 = toLowerCase w) :
    (recordWalletInteraction data projectId w t1).2.isNewWallet = true
    ∧ (recordWalletInteraction (recordWalletInteraction data projectId w t1).1
        projectId w2 t2).2.isNewWallet = false
    ∧ (recordWalletInteraction (recordWalletInteraction data projectId w t1).1
        projectId w2 t2).2.uniqueWallets
        = (recordWalletInteraction data projectId w t1).2.uniqueWallets
    ∧ (recordWalletInteraction (recordWalletInteraction data projectId w t1).1
        projectId w2 t2).2.totalTransactions
        = (recordWalletInteraction data projectId w t1).2.totalTransactions + 1
    ∧ (walletsOf (recordWalletInteraction (recordWalletInteraction data projectId w t1).1
          projectId w2 t2).1 projectId).filter
        (fun entry => toLowerCase entry.1 == toLowerCase w)
        = [(toLowerCase w, t2)] := by
  have hnone : lookupKey (toLowerCase w) (walletsOf data projectId) = none :=
    (lookupKey_eq_none_iff _ _).mpr
      (fun e he heq => h e he (by rw [heq]; exact toLowerCase_idem w))
  have hw1eq : setKey (toLowerCase w) t1 (walletsOf data projectId)
      = walletsOf data projectId ++ [(toLowerCase w, t1)] :=
    setKey_of_lookup_none (toLowerCase w) t1 _ hnone
  have hws1 : walletsOf (recordWalletInteraction data projectId w t1).1 projectId
      = walletsOf data projectId ++ [(toLowerCase w, t1)] := by
    rw [record_store_eq, walletsOf_setKey_self, hw1eq]
  have hlook2 : lookupKey (toLowerCase w2)
      (walletsOf (recordWalletInteraction data projectId w t1).1 projectId) = some t1 := by
    rw [hw2, hws1]
    exact lookupKey_append_self (toLowerCase w) t1 _ hnone
  have hsetkey2 : setKey (toLowerCase w2) t2
      (walletsOf (recordWalletInteraction data projectId w t1).1 projectId)
      = walletsOf data projectId ++ [(toLowerCase w, t2)] := by
    rw [hw2, hws1]
    exact setKey_append_of_lookup_none (toLowerCase w) t2 t1 _ hnone
  refine ⟨?_, ?_, ?_, ?_, ?_⟩
  · rw [record_result_eq, hnone]
    rfl
  · rw [record_result_eq, hlook2]
    rfl
  · rw [record_result_eq, record_result_eq, hsetkey2, hw1eq]
    simp
  · rw [record_result_eq, record_result_eq, totalTransactionsOf_record_self]
  · rw [record_store_eq, walletsOf_setKey_self, hsetkey2, List.filter_append]
    have hleft : (walletsOf data projectId).filter
        (fun entry => toLowerCase entry.1 == toLowerCase w) = [] := by
      rw [List.filter_eq_nil_iff]
      intro e he
      simp only [beq_iff_eq]
      exact h e he
    have hright : ([(toLowerCase w, t2)] : WalletData).filter
        (fun entry => toLowerCase entry.1 == toLowerCase w) = [(toLowerCase w, t2)] := by
      rw [List.filter_cons]
      have : ((fun entry => toLowerCase entry.1 == toLowerCase w)
          ((toLowerCase w, t2) : String × Int)) = true := by
        simp only [beq_iff_eq]
        exact toLowerCase_idem w
      rw [if_pos this]
      rfl
    rw [hleft, hright]
    rfl

theorem recordWalletInteraction_case_insensitive_repeat_witness :
    (recordWalletInteraction [] "p1" "AbC" 1).2.isNewWallet = true
    ∧ (recordWalletInteraction (recordWalletInteraction [] "p1" "AbC" 1).1
        "p1" "aBc" 2).2.isNewWallet = false
    ∧ (recordWalletInteraction (recordWalletInteraction [] "p1" "AbC" 1).1
        "p1" "aBc" 2).2.uniqueWallets
        = (recordWalletInteraction [] "p1" "AbC" 1).2.uniqueWallets
    ∧ (recordWalletInteraction (recordWalletInteraction [] "p1" "AbC" 1).1
        "p1" "aBc" 2).2.totalTransactions
        = (recordWalletInteraction [] "p1" "AbC" 1).2.totalTransactions + 1
    ∧ (walletsOf (recordWalletInteraction (recordWalletInteraction [] "p1" "AbC" 1).1
          "p1" "aBc" 2).1 "p1").filter
        (fun entry => toLowerCase entry.1 == toLowerCase "AbC")
        = [("abc", 2)] := by
  have h := recordWalletInteraction_case_insensitive_repeat [] "p1" "AbC" "aBc" 1 2
    (by decide) (by decide)
  refine ⟨h.1, h.2.1, h.2.2.1, h.2.2.2.1, ?_⟩
  rw [h.2.2.2.2]
  decide

theorem sendPush_eq_foldl (preferences : List Preference) (subscriptions : List Subscription)
    (currentVolume : Int) (deliverOk : Subscription → Bool)
    (h1 : (enabledPreferences preferences).isEmpty = false)
    (h2 : (relevantSubscriptions preferences subscriptions).isEmpty = false) :
    sendPushToProjectSubscribers preferences subscriptions currentVolume deliverOk
      = (groupByUser (relevantSubscriptions preferences subscriptions)).foldl
          (processUser (enabledPreferences preferences) currentVolume deliverOk)
          emptyGateResult := by
  simp only [sendPushToProjectSubscribers, h1, h2]
  rfl

/-- C3: for a subscriber whose computed percentage change is not below
their threshold, `sendPushToProjectSubscribers` attempts delivery to
every one of the user's endpoints — for an arbitrary delivery oracle, so
in particular when every delivery fails and when some endpoints fail and
others do not — and writes `last_notified_volume := currentVolume` for
that user exactly once. -/
theorem sendPush_qualifying_attempts_all_updates_once
    (preferences : List Preference) (subscriptions : List Subscription)
    (currentVolume : Int) (deliverOk : Subscription → Bool)
    (userId : String) (userSubs : List Subscription) (preference : Preference)
    (hmem : (userId, userSubs) ∈ groupByUser (relevantSubscriptions preferences subscriptions))
    (hlook : preferenceLookup (enabledPreferences preferences) userId = some preference)
    (hq : ¬ |percentageChange currentVolume (preference.last_notified_volume.getD 0)|
        < preference.percentage_threshold) :
    (∀ s ∈ userSubs, s.endpoint ∈
        (sendPushToProjectSubscribers preferences subscriptions
          currentVolume deliverOk).attempted)
    ∧ (sendPushToProjectSubscribers preferences subscriptions
        currentVolume deliverOk).updates.filter (fun u => u.1 == userId)
        = [(userId, currentVolume)] := by
  have h1 : (enabledPreferences preferences).isEmpty = false := by
    cases hE : enabledPreferences preferences with
    | nil =>
      rw [hE] at hlook
      simp [preferenceLookup] at hlook
    | cons a l => rfl
  have h2 : (relevantSubscriptions preferences subscriptions).isEmpty = false := by
    cases hR : relevantSubscriptions preferences subscriptions with
    | nil =>
      rw [hR] at hmem
      simp [groupByUser] at hmem
    | cons a l => rfl
  have hqB : qualifiesB (enabledPreferences preferences) currentVolume (userId, userSubs)
      = true := by
    rw [qualifiesB_of_lookup_some _ _ _ _ hlook]
    simp [hq]
  have hnodup := nodup_keys_groupByUser (relevantSubscriptions preferences subscriptions)
  constructor
  · intro s hs
    rw [sendPush_eq_foldl preferences subscriptions currentVolume deliverOk h1 h2,
      foldl_processUser_attempted]
    show s.endpoint ∈ ([] : List String) ++ _
    rw [List.nil_append]
    apply List.mem_flatten.mpr
    refine ⟨userSubs.map Subscription.endpoint, ?_, List.mem_map_of_mem _ hs⟩
    exact List.mem_map_of_mem (fun g => g.2.map Subscription.endpoint)
      (List.mem_filter.mpr ⟨hmem, hqB⟩)
  · rw [sendPush_eq_foldl preferences subscriptions currentVolume deliverOk h1 h2,
      foldl_processUser_updates]
    show (([] : List (String × Int)) ++ _).filter _ = _
    rw [List.nil_append, List.filter_map, List.filter_filter]
    have hswap : (groupByUser (relevantSubscriptions preferences subscriptions)).filter
        (fun a => ((fun u : String × Int => u.1 == userId) ∘
            (fun g : String × List Subscription => (g.1, currentVolume))) a
          && qualifiesB (enabledPreferences preferences) currentVolume a)
        = ((groupByUser (relevantSubscriptions preferences subscriptions)).filter
            (fun a => a.1 == userId)).filter
            (qualifiesB (enabledPreferences preferences) currentVolume) := by
      rw [List.filter_filter]
      apply List.filter_congr
      intro a _
      simp [Bool.and_comm]
    rw [hswap, filter_key_eq_singleton _ userId userSubs hnodup hmem]
    simp [hqB]

theorem sendPush_qualifying_attempts_all_updates_once_witness :
    ("e1" ∈ (sendPushToProjectSubscribers
        [{ user_id := "u1", percentage_threshold := 10,
           last_notified_volume := some 100, enabled := true }]
        [{ endpoint := "e1", p256dh := "k1", auth := "a1", user_id := some "u1" },
         { endpoint := "e2", p256dh := "k2", auth := "a2", user_id := some "u1" }]
        120 (fun _ => false)).attempted
      ∧ "e2" ∈ (sendPushToProjectSubscribers
        [{ user_id := "u1", percentage_threshold := 10,
           last_notified_volume := some 100, enabled := true }]
        [{ endpoint := "e1", p256dh := "k1", auth := "a1", user_id := some "u1" },
         { endpoint := "e2", p256dh := "k2", auth := "a2", user_id := some "u1" }]
        120 (fun _ => false)).attempted)
    ∧ (sendPushToProjectSubscribers
        [{ user_id := "u1", percentage_threshold := 10,
           last_notified_volume := some 100, enabled := true }]
        [{ endpoint := "e1", p256dh := "k1", auth := "a1", user_id := some "u1" },
         { endpoint := "e2", p256dh := "k2", auth := "a2", user_id := some "u1" }]
        120 (fun _ => false)).updates.filter (fun u => u.1 == "u1")
        = [("u1", 120)] := by
  have h := sendPush_qualifying_attempts_all_updates_once
    [{ user_id := "u1", percentage_threshold := 10,
       last_notified_volume := some 100, enabled := true }]
    [{ endpoint := "e1", p256dh := "k1", auth := "a1", user_id := some "u1" },
     { endpoint := "e2", p256dh := "k2", auth := "a2", user_id := some "u1" }]
    120 (fun _ => false) "u1"
    [{ endpoint := "e1", p256dh := "k1", auth := "a1", user_id := some "u1" },
     { endpoint := "e2", p256dh := "k2", auth := "a2", user_id := some "u1" }]
    { user_id := "u1", percentage_threshold := 10,
      last_notified_volume := some 100, enabled := true }
    (by decide) (by decide) (by with_unfolding_all decide)
  exact ⟨⟨h.1 { endpoint := "e1", p256dh := "k1", auth := "a1", user_id := some "u1" }
      (by decide),
    h.1 { endpoint := "e2", p256dh := "k2", auth := "a2", user_id := some "u1" }
      (by decide)⟩, h.2⟩

theorem enabledPreferences_filter (preferences : List Preference) (q : Preference → Bool) :
    enabledPreferences (preferences.filter q) = (enabledPreferences preferences).filter q := by
  unfold enabledPreferences
  rw [List.filter_filter, List.filter_filter]
  apply List.filter_congr
  intro p _
  exact Bool.and_comm _ _

theorem contains_map_filter_ne (preferences : List Preference) (uid u : String)
    (hu : u ≠ uid) :
    ((preferences.filter (fun p => !(p.user_id == uid))).map
        (fun p => p.user_id)).contains u
      = (preferences.map (fun p => p.user_id)).contains u := by
  induction preferences with
  | nil => rfl
  | cons p rest ih =>
    by_cases hp : p.user_id = uid
    · rw [List.filter_cons, if_neg (by simp [hp]), List.map_cons, List.contains_cons]
      have hne : (u == p.user_id) = false := by simp [hp, hu]
      rw [hne, ih]
      simp
    · rw [List.filter_cons, if_pos (by simp [hp]), List.map_cons, List.map_cons,
        List.contains_cons, List.contains_cons, ih]

theorem relevantSubscriptions_filter_out (preferences : List Preference)
    (subscriptions : List Subscription) (uid : String)
    (hsub : ∀ s ∈ subscriptions, s.user_id ≠ some uid) :
    relevantSubscriptions (preferences.filter (fun p => !(p.user_id == uid))) subscriptions
      = relevantSubscriptions preferences subscriptions := by
  unfold relevantSubscriptions
  apply List.filter_congr
  intro s hs
  cases hsu : s.user_id with
  | none => rfl
  | some u =>
    have hu : u ≠ uid := fun h => hsub s hs (by rw [hsu, h])
    simp only
    rw [enabledPreferences_filter]
    exact contains_map_filter_ne (enabledPreferences preferences) uid u hu

theorem preferenceLookup_filter_out (preferences : List Preference) (uid k : String)
    (hk : k ≠ uid) :
    preferenceLookup (preferences.filter (fun p => !(p.user_id == uid))) k
      = preferenceLookup preferences k := by
  unfold preferenceLookup
  rw [← List.filter_reverse]
  apply find?_filter_of_imp
  intro p hp
  simp only [beq_iff_eq] at hp
  simp [hp, hk]

theorem processUser_congr_prefs (prefsA prefsB : List Preference) (currentVolume : Int)
    (deliverOk : Subscription → Bool) (acc : GateResult)
    (group : String × List Subscription)
    (h : preferenceLookup prefsA group.1 = preferenceLookup prefsB group.1) :
    processUser prefsA currentVolume deliverOk acc group
      = processUser prefsB currentVolume deliverOk acc group := by
  unfold processUser
  rw [h]

theorem mem_relevantSubscriptions (preferences : List Preference)
    (subscriptions : List Subscription) (s : Subscription)
    (h : s ∈ relevantSubscriptions preferences subscriptions) : s ∈ subscriptions := by
  simp only [relevantSubscriptions] at h
  exact (List.mem_filter.mp h).1

theorem relevant_nil_of_all_uid (preferences : List Preference)
    (subscriptions : List Subscription) (uid : String)
    (hall : ∀ p ∈ enabledPreferences preferences, p.user_id = uid)
    (hsub : ∀ s ∈ subscriptions, s.user_id ≠ some uid) :
    relevantSubscriptions preferences subscriptions = [] := by
  simp only [relevantSubscriptions]
  rw [List.filter_eq_nil_iff]
  intro s hs
  cases hsu : s.user_id with
  | none => simp
  | some u =>
    have hu : u ≠ uid := fun h => hsub s hs (by rw [hsu, h])
    simp only [Bool.not_eq_true]
    cases hc : ((enabledPreferences preferences).map (fun p => p.user_id)).contains u with
    | false => rfl
    | true =>
      exfalso
      have hmem : u ∈ (enabledPreferences preferences).map (fun p => p.user_id) :=
        List.elem_iff.mp hc
      rcases List.mem_map.mp hmem with ⟨p, hp, hpu⟩
      exact hu (by rw [← hpu, hall p hp])

theorem groupByUser_key_ne_uid (preferences : List Preference)
    (subscriptions : List Subscription) (uid : String)
    (hsub : ∀ s ∈ subscriptions, s.user_id ≠ some uid)
    (g : String × List Subscription)
    (hg : g ∈ groupByUser (relevantSubscriptions preferences subscriptions)) :
    g.1 ≠ uid := by
  intro hcontra
  rcases mem_keys_groupByUser (relevantSubscriptions preferences subscriptions) g.1
    (List.mem_map_of_mem Prod.fst hg) with ⟨s, hs, hsu⟩
  exact hsub s (mem_relevantSubscriptions preferences subscriptions s hs)
    (by rw [hsu, hcontra])

/-- C10: an enabled subscriber with no push-endpoint rows is excluded
from the notification pass entirely — running the gate with that
subscriber's preference row removed yields the same result (so they
contribute to none of sent/failed/skipped), and their
`last_notified_volume` is never written; when no subscriber has any
endpoint at all the gate returns zero counters with no state change. -/
theorem sendPush_subscriber_without_endpoints_excluded
    (preferences : List Preference) (subscriptions : List Subscription)
    (currentVolume : Int) (deliverOk : Subscription → Bool) (uid : String)
    (hsub : ∀ s ∈ subscriptions, s.user_id ≠ some uid) :
    sendPushToProjectSubscribers preferences subscriptions currentVolume deliverOk
      = sendPushToProjectSubscribers
          (preferences.filter (fun p => !(p.user_id == uid)))
          subscriptions currentVolume deliverOk
    ∧ (∀ v : Int, (uid, v) ∉
        (sendPushToProjectSubscribers preferences subscriptions
          currentVolume deliverOk).updates)
    ∧ (relevantSubscriptions preferences subscriptions = [] →
        sendPushToProjectSubscribers preferences subscriptions currentVolume deliverOk
          = emptyGateResult) := by
  have hrel := relevantSubscriptions_filter_out preferences subscriptions uid hsub
  refine ⟨?_, ?_, ?_⟩
  · by_cases hE : (enabledPreferences preferences).isEmpty = true
    · have hnil := List.isEmpty_iff.mp hE
      have hE2 : (enabledPreferences
          (preferences.filter (fun p => !(p.user_id == uid)))).isEmpty = true := by
        rw [enabledPreferences_filter, hnil]
        rfl
      simp [sendPushToProjectSubscribers, hE, hE2]
    · have hEf : (enabledPreferences preferences).isEmpty = false :=
        Bool.eq_false_iff.mpr hE
      by_cases hE2 : (enabledPreferences
          (preferences.filter (fun p => !(p.user_id == uid)))).isEmpty = true
      · have hall : ∀ p ∈ enabledPreferences preferences, p.user_id = uid := by
          have hnil2 := List.isEmpty_iff.mp hE2
          rw [enabledPreferences_filter] at hnil2
          intro p hp
          have := List.filter_eq_nil_iff.mp hnil2 p hp
          simpa using this
        have hrelnil : relevantSubscriptions preferences subscriptions = [] :=
          relevant_nil_of_all_uid preferences subscriptions uid hall hsub
        have hRt : (relevantSubscriptions preferences subscriptions).isEmpty = true := by
          rw [hrelnil]
          rfl
        simp [sendPushToProjectSubscribers, hEf, hE2, hRt]
      · have hE2f : (enabledPreferences
            (preferences.filter (fun p => !(p.user_id == uid)))).isEmpty = false :=
          Bool.eq_false_iff.mpr hE2
        by_cases hR : (relevantSubscriptions preferences subscriptions).isEmpty = true
        · have hR2 : (relevantSubscriptions
              (preferences.filter (fun p => !(p.user_id == uid)))
              subscriptions).isEmpty = true := by
            rw [hrel]
            exact hR
          simp [sendPushToProjectSubscribers, hEf, hE2f, hR, hR2]
        · have hRf : (relevantSubscriptions preferences subscriptions).isEmpty = false :=
            Bool.eq_false_iff.mpr hR
          have hR2f : (relevantSubscriptions
              (preferences.filter (fun p => !(p.user_id == uid)))
              subscriptions).isEmpty = false := by
            rw [hrel]
            exact hRf
          rw [sendPush_eq_foldl preferences subscriptions currentVolume deliverOk hEf hRf,
            sendPush_eq_foldl _ subscriptions currentVolume deliverOk hE2f hR2f, hrel]
          apply List.foldl_ext
          intro acc g hg
          rw [enabledPreferences_filter]
          exact processUser_congr_prefs _ _ currentVolume deliverOk acc g
            (preferenceLookup_filter_out (enabledPreferences preferences) uid g.1
              (groupByUser_key_ne_uid preferences subscriptions uid hsub g hg)).symm
  · intro v hvmem
    by_cases hE : (enabledPreferences preferences).isEmpty = true
    · simp [sendPushToProjectSubscribers, hE, emptyGateResult] at hvmem
    · have hEf : (enabledPreferences preferences).isEmpty = false :=
        Bool.eq_false_iff.mpr hE
      by_cases hR : (relevantSubscriptions preferences subscriptions).isEmpty = true
      · simp [sendPushToProjectSubscribers, hEf, hR, emptyGateResult] at hvmem
      · have hRf : (relevantSubscriptions preferences subscriptions).isEmpty = false :=
          Bool.eq_false_iff.mpr hR
        rw [sendPush_eq_foldl preferences subscriptions currentVolume deliverOk hEf hRf,
          foldl_processUser_updates] at hvmem
        simp only [emptyGateResult, List.nil_append] at hvmem
        rcases List.mem_map.mp hvmem with ⟨g, hgf, heq⟩
        have hgg : g ∈ groupByUser (relevantSubscriptions preferences subscriptions) :=
          (List.mem_filter.mp hgf).1
        exact groupByUser_key_ne_uid preferences subscriptions uid hsub g hgg
          (congrArg Prod.fst heq)
  · intro hrelnil
    by_cases hE : (enabledPreferences preferences).isEmpty = true
    · simp [sendPushToProjectSubscribers, hE]
    · have hEf : (enabledPreferences preferences).isEmpty = false :=
        Bool.eq_false_iff.mpr hE
      have hRt : (relevantSubscriptions preferences subscriptions).isEmpty = true := by
        rw [hrelnil]
        rfl
      simp [sendPushToProjectSubscribers, hEf, hRt]

theorem sendPush_subscriber_without_endpoints_excluded_witness :
    sendPushToProjectSubscribers
        [{ user_id := "u1", percentage_threshold := 5,
           last_notified_volume := some 0, enabled := true },
         { user_id := "u2", percentage_threshold := 5,
           last_notified_volume := some 0, enabled := true }]
        [{ endpoint := "e2", p256dh := "k2", auth := "a2", user_id := some "u2" }]
        7 (fun _ => true)
      = sendPushToProjectSubscribers
          ([{ user_id := "u1", percentage_threshold := 5,
              last_notified_volume := some 0, enabled := true },
            { user_id := "u2", percentage_threshold := 5,
              last_notified_volume := some 0, enabled := true }].filter
            (fun p => !(p.user_id == "u1")))
          [{ endpoint := "e2", p256dh := "k2", auth := "a2", user_id := some "u2" }]
          7 (fun _ => true)
    ∧ (("u1", (7 : Int)) ∉ (sendPushToProjectSubscribers
        [{ user_id := "u1", percentage_threshold := 5,
           last_notified_volume := some 0, enabled := true },
         { user_id := "u2", percentage_threshold := 5,
           last_notified_volume := some 0, enabled := true }]
        [{ endpoint := "e2", p256dh := "k2", auth := "a2", user_id := some "u2" }]
        7 (fun _ => true)).updates) := by
  have h := sendPush_subscriber_without_endpoints_excluded
    [{ user_id := "u1", percentage_threshold := 5,
       last_notified_volume := some 0, enabled := true },
     { user_id := "u2", percentage_threshold := 5,
       last_notified_volume := some 0, enabled := true }]
    [{ endpoint := "e2", p256dh := "k2", auth := "a2", user_id := some "u2" }]
    7 (fun _ => true) "u1" (by decide)
  exact ⟨h.1, h.2.1 7⟩
